import Mathlib

/-!
Verification of the crypto-manager connection handlers of this repository
(`server/src/crypto_mgr.rs`) via a shallow embedding in Lean.

Machine bytes are modelled as `Nat` (values < 256 at the wire level; XOR never
overflows), 32-bit integers as `Nat` with explicit `% 2^32` where the source
casts.  Fallible handlers return an explicit result type.  The `aria` block
cipher and the packet transport are collaborators outside `src/`; the cipher is
modelled as an abstract encrypt/decrypt pair (spec section 8: encrypt-then-
decrypt of a block is the identity), and sends are modelled as the `ok` value
of a handler result.
-/

/-- The process-wide 32-bit word mask (`0x1f398ab3`) applied to integer
metadata fields in `crypto_mgr.rs`. -/
def wordMask : Nat := 0x1f398ab3

/-- The process-wide byte mask (`0xb3`) applied to every byte of every
enciphered block (`xor_blocks_mut`). -/
def byteMask : Nat := 0xb3

/-- One cipher block: a list of bytes (16 at the wire level). -/
abbrev AriaBlock := List Nat

/-- `xor_blocks_mut` on a single block: XOR every byte with `0xb3`
(`crypto_mgr.rs` lines 64-68).  The same function both masks and unmasks. -/
def xorBlock (b : AriaBlock) : AriaBlock := b.map (fun x => x ^^^ byteMask)

/-- `xor_blocks_mut` over a slice of blocks. -/
def xorBlocks (bs : List AriaBlock) : List AriaBlock := bs.map xorBlock

/-- The 32-byte key buffer handed to `aria::Key::from`.  Modelled from the
spec: the `aria` crate is a collaborator outside `src/`; `Key::from` stores the
32-byte buffer and `as_bytes` returns it, and the key schedule expands it
deterministically into an encrypt/decrypt pair. -/
abbrev Key := List Nat

/-- Modelled from the spec: the `aria` block cipher (crate not under `src/`).
`encrypt`/`decrypt` are the per-block transforms derived from a session key;
spec section 8 promises that for a fixed key, encrypt-then-decrypt of any
fixed-size block is the identity, which theorems take as a hypothesis. -/
structure AriaCipher where
  encrypt : Key → AriaBlock → AriaBlock
  decrypt : Key → AriaBlock → AriaBlock

/-- ASCII bytes of a Lean string (all strings in this development are ASCII). -/
def strBytes (s : String) : List Nat := s.data.map Char.toNat

/-- `Block::new(s)`: one 16-byte block holding the bytes of `s`, zero padded. -/
def blockNew (s : String) : AriaBlock :=
  (strBytes s ++ List.replicate 16 0).take 16

/-- Split a byte list into `n` 16-byte chunks. -/
def toBlocks : Nat → List Nat → List AriaBlock
  | 0, _ => []
  | n + 1, l => l.take 16 :: toBlocks n (l.drop 16)

/-- `Block::arr_from_slice(s)` at array length `n`: the bytes of `s` zero
padded and split into `n` 16-byte blocks. -/
def arrFromSlice (n : Nat) (s : String) : List AriaBlock :=
  toBlocks n (strBytes s ++ List.replicate (16 * n) 0)

/-- Concatenate the bytes of a block array (the byte view `try_as_str` reads). -/
def joinBlocks (bs : List AriaBlock) : List Nat := bs.flatten

/-- `try_as_str` on a byte buffer: the bytes up to the first NUL, decoded as
text.  Modelled from the spec ("decoded as text — decode failure is a protocol
violation"): decoding succeeds when those bytes are ASCII. -/
def tryAsStr (bytes : List Nat) : Option (List Nat) :=
  let s := bytes.takeWhile (fun b => b != 0)
  if s.all (fun b => decide (b < 128)) then some s else none

/-- A mixed-case ASCII letter, the range `rand::gen_range(b'a'..=b'z')` or
`gen_range(b'A'..=b'Z')` draws from. -/
def isMixedCaseLetter (b : Nat) : Bool :=
  (97 ≤ b && b ≤ 122) || (65 ≤ b && b ≤ 90)

/-- A printable alphanumeric ASCII byte. -/
def isPrintableAlnum (b : Nat) : Bool :=
  isMixedCaseLetter b || (48 ≤ b && b ≤ 57)

/-- The 32-byte key buffer built in `handle_key_req` (lines 96-105): indices
`0..8` hold freshly drawn mixed-case letters, the remaining 24 bytes stay `0`.
The RNG is abstracted as the sequence `letter` of drawn letters; `rand`
guarantees each draw lies in a letter range, which theorems take as a
hypothesis. -/
def genKeybuf (letter : Nat → Nat) : Key :=
  (List.range 32).map (fun i => if i < 8 then letter i else 0)

/-- `crypto_mgr::EncryptKey2Request` as the handler reads it: the single
`key_split_point` word (u32, modelled as `Nat`). -/
structure EncryptKey2Request where
  key_split_point : Nat
deriving DecidableEq

/-- `crypto_mgr::EncryptKey2Response`: the echoed split-point word and the
9-byte masked key blob (`UnboundVec`). -/
structure EncryptKey2Response where
  key_split_point : Nat
  shortkey : List Nat
deriving DecidableEq

/-- `crypto_mgr::KeyAuthRequest` as the handler reads it: one masked word, two
reserved words, two single-block fields and two block-array fields. -/
structure KeyAuthRequest where
  xor_port : Nat
  unk1 : Nat
  unk2 : Nat
  ip_origin : AriaBlock
  ip_local : AriaBlock
  srchash : List AriaBlock
  binbuf : List AriaBlock
deriving DecidableEq

/-- `crypto_mgr::KeyAuthResponse` (lines 161-172). -/
structure KeyAuthResponse where
  unk1 : Nat
  xor_unk2 : Nat
  ip_local : AriaBlock
  xor_unk3 : Nat
  enc_item : List AriaBlock
  xor_unk4 : Nat
  enc_mobs : List AriaBlock
  xor_unk5 : Nat
  enc_warp : List AriaBlock
  port : Nat
deriving DecidableEq

/-- The decoded `crypto_mgr::ESYMRequest`: a numeric id and a hash string
(path characters). -/
structure ESYMRequest where
  nation : Nat
  srchash : List Char
deriving DecidableEq

/-- `crypto_mgr::ESYMResponse` (lines 198-202). -/
structure ESYMResponse where
  unk1 : Nat
  filesize : Nat
  esym : List Nat
deriving DecidableEq

/-- The slice of `crate::args::Config` the handlers consume: the resources
directory path. -/
structure Config where
  resources_dir : List Char
deriving DecidableEq

/-- The ways a handler invocation can fail.  `assertUnk1`/`assertUnk2` are the
`assert_eq!` panics on the reserved fields (lines 121-122), `notInitialized`
the `context("shortkey not initialized")` error (line 124), `decodeText` a
`try_as_str` failure, `esymDecode` a bincode decode failure, `trailingData` the
`bail!` on leftover ESYM payload bytes (line 182), and `readFailed` carries the
`cannot read {path:?}` report (line 196). -/
inductive CErr where
  | assertUnk1
  | assertUnk2
  | notInitialized
  | decodeText
  | esymDecode
  | trailingData
  | readFailed (msg : List Char)
deriving DecidableEq

/-- The outcome of one handler invocation: `ok` means the response value was
sent on the stream, `err` means the handler returned early with an error and
nothing was sent. -/
inductive CResult (α : Type) where
  | ok (a : α)
  | err (e : CErr)
deriving DecidableEq

/-- `Connection::handle_key_req` (lines 84-115).  State is the `OnceCell`
content; `letter` abstracts the RNG draws used when the cell is empty.  The
received `key_split_point` is XORed once with the word mask and that value is
placed in the response; the response key blob is the first 9 bytes of the
(possibly freshly initialized) 32-byte key buffer, each byte XORed with
`0xb3`. -/
def handle_key_req (letter : Nat → Nat) (st : Option Key) (req : EncryptKey2Request) :
    Option Key × EncryptKey2Response :=
  let split := req.key_split_point ^^^ wordMask
  let key := st.getD (genKeybuf letter)
  (some key,
   { key_split_point := split,
     shortkey := (key.take 9).map (fun b => b ^^^ byteMask) })

/-- `Connection::handle_auth_req` (lines 117-174).  The reserved-field
`assert_eq!`s run before the `OnceCell` is consulted; on success the response
is built from fixed constants and the three resource paths encrypted with the
session encrypt key and then byte-masked.  The received `xor_port` is XORed
with the word mask for logging only and does not influence the result. -/
def handle_auth_req (cipher : AriaCipher) (st : Option Key) (req : KeyAuthRequest) :
    CResult KeyAuthResponse :=
  if req.unk1 ≠ 0 then .err .assertUnk1
  else if req.unk2 ≠ 0 then .err .assertUnk2
  else
    match st with
    | none => .err .notInitialized
    | some key =>
      match tryAsStr (cipher.decrypt key (xorBlock req.ip_origin)),
            tryAsStr (cipher.decrypt key (xorBlock req.ip_local)),
            tryAsStr (joinBlocks ((xorBlocks req.srchash).map (cipher.decrypt key))),
            tryAsStr (joinBlocks ((xorBlocks req.binbuf).map (cipher.decrypt key))) with
      | some _, some _, some _, some _ =>
        .ok { unk1 := 1,
              xor_unk2 := 0x03010101 ^^^ wordMask,
              ip_local := blockNew "127.0.0.1",
              xor_unk3 := 4 ^^^ byteMask,
              enc_item := xorBlocks ((arrFromSlice 16 "Data/Item.scp").map (cipher.encrypt key)),
              xor_unk4 := 2 ^^^ byteMask,
              enc_mobs := xorBlocks ((arrFromSlice 16 "Data/Mobs.scp").map (cipher.encrypt key)),
              xor_unk5 := 1 ^^^ byteMask,
              enc_warp := xorBlocks ((arrFromSlice 16 "Data/Warp.scp").map (cipher.encrypt key)),
              port := 38180 }
      | _, _, _, _ => .err .decodeText

/-- `true` iff the path starts with the separator, i.e. `Path::is_absolute`
on Unix. -/
def startsWithSlash : List Char → Bool
  | [] => false
  | c :: _ => c == '/'

/-- `Path::join`/`PathBuf::push` on Unix paths (std collaborator, modelled
from its documented semantics): an absolute right operand replaces the path,
otherwise the operands are joined with a separator unless one is already
present (a path ends with the separator iff its reversal starts with it). -/
def pathJoin (a b : List Char) : List Char :=
  if startsWithSlash b then b
  else if a = [] then b
  else if startsWithSlash a.reverse then a ++ b
  else a ++ '/' :: b

/-- The final path component (bytes after the last separator). -/
def lastName (p : List Char) : List Char :=
  (p.reverse.takeWhile (fun c => c != '/')).reverse

/-- Everything before the final path component. -/
def dirPrefix (p : List Char) : List Char :=
  p.take (p.length - (lastName p).length)

/-- Drop the extension of a file name, following `Path::file_stem`: the part
after the final `.` is an extension only when something nonempty precedes that
dot (so a lone leading dot is part of the stem). -/
def dropExt (n : List Char) : List Char :=
  let after := n.reverse.takeWhile (fun c => c != '.')
  if after.length = n.length then n
  else if n.length - after.length - 1 = 0 then n
  else n.take (n.length - after.length - 1)

/-- `PathBuf::with_extension` for a nonempty new extension (std collaborator,
modelled from its documented semantics on ordinary final components): the
final component keeps its stem and receives `.ext`. -/
def withExt (p ext : List Char) : List Char :=
  dirPrefix p ++ dropExt (lastName p) ++ '.' :: ext

/-- The path built in `handle_esym` (lines 190-195):
`resources_dir.join("resources/esym").join(srchash).with_extension("esym")`. -/
def esymPath (dir hash : List Char) : List Char :=
  withExt (pathJoin (pathJoin dir ("resources/esym".data)) hash) ("esym".data)

/-- The `ESYMResponse` built from the bytes of a successfully read file
(lines 198-202): `filesize` is `data.len() as u32`, i.e. the length reduced
modulo `2^32`; `esym` carries the raw bytes. -/
def mkESYMResponse (data : List Nat) : ESYMResponse :=
  { unk1 := 1, filesize := data.length % 2 ^ 32, esym := data }

/-- `Connection::handle_esym` (lines 176-208).  `decode` abstracts
`bincode::decode_from_slice` (external crate), returning the decoded inner
request and the number of payload bytes consumed; `fs` abstracts
`std::fs::read`.  Any mismatch between consumed length and payload length is
the `Trailing data` bail; a read failure is reported with the formatted
path. -/
def handle_esym (decode : List Nat → Option (ESYMRequest × Nat))
    (fs : List Char → Option (List Nat)) (cfg : Config) (bytes : List Nat) :
    CResult ESYMResponse :=
  match decode bytes with
  | none => .err .esymDecode
  | some (req, len) =>
    if len ≠ bytes.length then .err .trailingData
    else
      let path := esymPath cfg.resources_dir req.srchash
      match fs path with
      | none => .err (.readFailed (("cannot read \"".data) ++ path ++ ("\"".data)))
      | some data => .ok (mkESYMResponse data)

/-- The inbound message kinds dispatched by the `Ready` loop of
`Connection::handle` (lines 234-244); `other` covers every
recognized-but-unhandled kind, which is logged and skipped. -/
inductive Payload where
  | encryptKey2Request (req : EncryptKey2Request)
  | keyAuthRequest (req : KeyAuthRequest)
  | esym (bytes : List Nat)
  | other

/-- The collaborators a running connection closes over: the cipher, the
bincode decoder, the filesystem, the configuration and the RNG draws. -/
structure Env where
  cipher : AriaCipher
  decode : List Nat → Option (ESYMRequest × Nat)
  fs : List Char → Option (List Nat)
  cfg : Config
  letter : Nat → Nat

/-- What one iteration of the dispatch loop produced. -/
inductive DispatchResult where
  | keyResp (r : EncryptKey2Response)
  | authResp (r : CResult KeyAuthResponse)
  | esymResp (r : CResult ESYMResponse)
  | skipped

/-- One iteration of the `Ready` dispatch loop (lines 234-244): the state is
the `shortkey` `OnceCell` content; only `handle_key_req` can write it
(through `get_or_init`), the other arms read it at most (`get`). -/
def step (env : Env) (st : Option Key) : Payload → Option Key × DispatchResult
  | .encryptKey2Request req =>
    let r := handle_key_req env.letter st req
    (r.1, .keyResp r.2)
  | .keyAuthRequest req => (st, .authResp (handle_auth_req env.cipher st req))
  | .esym bytes => (st, .esymResp (handle_esym env.decode env.fs env.cfg bytes))
  | .other => (st, .skipped)

/-- The unmasked view of the key blob of the response to a key-exchange
request arriving at state `st`: each byte of the masked `shortkey` field XORed
with `0xb3`. -/
def keyRespUnmasked (letter : Nat → Nat) (st : Option Key) (req : EncryptKey2Request) :
    List Nat :=
  ((handle_key_req letter st req).2.shortkey).map (fun b => b ^^^ byteMask)

lemma xor_byteMask_cancel (a : Nat) : a ^^^ byteMask ^^^ byteMask = a := by
  simp [Nat.xor_assoc]

lemma map_xor_byteMask_cancel (l : List Nat) :
    (l.map (fun b => b ^^^ byteMask)).map (fun b => b ^^^ byteMask) = l := by
  induction l with
  | nil => rfl
  | cons a t ih => simp only [List.map_cons, xor_byteMask_cancel, ih]

lemma xorBlock_xorBlock (b : AriaBlock) : xorBlock (xorBlock b) = b :=
  map_xor_byteMask_cancel b

lemma take9_genKeybuf (letter : Nat → Nat) :
    (genKeybuf letter).take 9 = [letter 0, letter 1, letter 2, letter 3,
      letter 4, letter 5, letter 6, letter 7, 0] := rfl

lemma keyRespUnmasked_none (letter : Nat → Nat) (req : EncryptKey2Request) :
    keyRespUnmasked letter none req = [letter 0, letter 1, letter 2, letter 3,
      letter 4, letter 5, letter 6, letter 7, 0] := by
  have h0 : keyRespUnmasked letter none req
      = (((genKeybuf letter).take 9).map (fun b => b ^^^ byteMask)).map
          (fun b => b ^^^ byteMask) := rfl
  rw [h0, map_xor_byteMask_cancel, take9_genKeybuf]

/-- C1, amended.  On the first `KeyExchangeRequest` of a connection the
response blob is the first 9 bytes of the freshly generated key buffer, each
XORed with `0xb3`; unmasking it yields the 8 freshly drawn mixed-case letters
followed by a `0` byte (not 9 letters: the source fills only indices `0..8` of
the buffer but sends `as_bytes()[0..9]`). -/
theorem c1_session_key_bytes (letter : Nat → Nat)
    (h : ∀ i, i < 8 → isMixedCaseLetter (letter i) = true) (req : EncryptKey2Request) :
    (handle_key_req letter none req).2.shortkey
      = ((genKeybuf letter).take 9).map (fun b => b ^^^ byteMask)
    ∧ keyRespUnmasked letter none req = [letter 0, letter 1, letter 2, letter 3,
        letter 4, letter 5, letter 6, letter 7, 0]
    ∧ (∀ b ∈ (keyRespUnmasked letter none req).take 8, isMixedCaseLetter b = true)
    ∧ (keyRespUnmasked letter none req).getLast? = some 0 := by
  refine ⟨rfl, keyRespUnmasked_none letter req, ?_, ?_⟩
  · intro b hb
    rw [keyRespUnmasked_none] at hb
    simp only [List.take, List.mem_cons, List.not_mem_nil, or_false] at hb
    rcases hb with rfl | rfl | rfl | rfl | rfl | rfl | rfl | rfl
    · exact h 0 (by decide)
    · exact h 1 (by decide)
    · exact h 2 (by decide)
    · exact h 3 (by decide)
    · exact h 4 (by decide)
    · exact h 5 (by decide)
    · exact h 6 (by decide)
    · exact h 7 (by decide)
  · rw [keyRespUnmasked_none]
    rfl

/-- C1 witness: the theorem applied to the concrete draw sequence that always
yields the letter `a`. -/
theorem c1_session_key_bytes_witness :
    (handle_key_req (fun _ => 97) none ⟨0⟩).2.shortkey
      = ((genKeybuf (fun _ => 97)).take 9).map (fun b => b ^^^ byteMask)
    ∧ keyRespUnmasked (fun _ => 97) none ⟨0⟩ = [97, 97, 97, 97, 97, 97, 97, 97, 0]
    ∧ (∀ b ∈ (keyRespUnmasked (fun _ => 97) none ⟨0⟩).take 8, isMixedCaseLetter b = true)
    ∧ (keyRespUnmasked (fun _ => 97) none ⟨0⟩).getLast? = some 0 :=
  c1_session_key_bytes (fun _ => 97) (fun _ _ => rfl) ⟨0⟩

/-- C1 counterexample: with every RNG draw equal to the letter `a` (a possible
draw), the unmasked 9-byte blob is not made of 9 printable alphanumeric bytes
and the 9-byte session key is not made of 9 mixed-case letters: its last byte
is `0`. -/
theorem c1_counterexample :
    ((keyRespUnmasked (fun _ => 97) none ⟨0⟩).all isPrintableAlnum) = false
    ∧ ((keyRespUnmasked (fun _ => 97) none ⟨0⟩).all isMixedCaseLetter) = false
    ∧ (((genKeybuf (fun _ => 97)).take 9).all isMixedCaseLetter) = false := by
  decide

/-- C2, amended.  On a fresh connection (empty `shortkey` cell) an
`AuthenticationRequest` whose two reserved fields are zero fails with the
`shortkey not initialized` error; every `AuthenticationRequest` on a fresh
connection fails (nothing is sent) and leaves the session key unset — but a
request with a nonzero reserved field fails through the reserved-field
assertion, which runs before the key check, not with "not initialized". -/
theorem c2_auth_before_key (env : Env) (req : KeyAuthRequest)
    (h1 : req.unk1 = 0) (h2 : req.unk2 = 0) :
    handle_auth_req env.cipher none req = .err .notInitialized
    ∧ (∀ r, (step env none (.keyAuthRequest r)).1 = none)
    ∧ (∀ r, ∃ e, handle_auth_req env.cipher none r = .err e) := by
  refine ⟨by simp [handle_auth_req, h1, h2], fun r => rfl, ?_⟩
  intro r
  by_cases hu1 : r.unk1 = 0
  · by_cases hu2 : r.unk2 = 0
    · exact ⟨.notInitialized, by simp [handle_auth_req, hu1, hu2]⟩
    · exact ⟨.assertUnk2, by simp [handle_auth_req, hu1, hu2]⟩
  · exact ⟨.assertUnk1, by simp [handle_auth_req, hu1]⟩

/-- The identity cipher: a concrete `AriaCipher` whose encrypt and decrypt
transforms are the identity, satisfying the round-trip law. -/
def idCipher : AriaCipher := { encrypt := fun _ b => b, decrypt := fun _ b => b }

/-- A concrete environment for witnesses. -/
def env0 : Env :=
  { cipher := idCipher, decode := fun _ => none, fs := fun _ => none,
    cfg := ⟨"r".data⟩, letter := fun _ => 97 }

/-- A well-formed authentication request with zeroed reserved fields. -/
def authReq0 : KeyAuthRequest :=
  { xor_port := 0, unk1 := 0, unk2 := 0, ip_origin := [], ip_local := [],
    srchash := [], binbuf := [] }

/-- An authentication request with a nonzero first reserved field. -/
def authReqBad : KeyAuthRequest :=
  { xor_port := 0, unk1 := 1, unk2 := 0, ip_origin := [], ip_local := [],
    srchash := [], binbuf := [] }

/-- C2 witness: the theorem applied to a concrete fresh connection and a
request with zeroed reserved fields. -/
theorem c2_auth_before_key_witness :
    handle_auth_req env0.cipher none authReq0 = .err .notInitialized
    ∧ (∀ r, (step env0 none (.keyAuthRequest r)).1 = none)
    ∧ (∀ r, ∃ e, handle_auth_req env0.cipher none r = .err e) :=
  c2_auth_before_key env0 authReq0 rfl rfl

/-- C2 counterexample: an `AuthenticationRequest` with a nonzero reserved
field, on a fresh connection, fails through the reserved-field assertion, not
with the "not initialized" condition. -/
theorem c2_counterexample :
    handle_auth_req idCipher none authReqBad = .err .assertUnk1
    ∧ handle_auth_req idCipher none authReqBad ≠ .err .notInitialized := by
  decide

/-- C3, confirmed.  The session key is derived at most once: no dispatch-loop
operation changes an already-set key, the first `KeyExchangeRequest` on an
empty cell caches the freshly generated buffer, and every `KeyExchangeRequest`
arriving with the key set replies with exactly the masked first 9 bytes of
that key — the same bytes every time. -/
theorem c3_session_key_once (env : Env) (k : Key) :
    (∀ p, (step env (some k) p).1 = some k)
    ∧ (∀ req, (handle_key_req env.letter none req).1 = some (genKeybuf env.letter))
    ∧ (∀ req, (handle_key_req env.letter (some k) req).2.shortkey
        = (k.take 9).map (fun b => b ^^^ byteMask))
    ∧ (∀ req req2, (handle_key_req env.letter (some k) req).2.shortkey
        = (handle_key_req env.letter (some k) req2).2.shortkey) := by
  refine ⟨?_, fun req => rfl, fun req => rfl, fun req req2 => rfl⟩
  intro p
  cases p <;> simp [step, handle_key_req]

/-- C5, amended.  The `key_split_point` field of the `EncryptKey2Response` is
the received value XORed once with the word mask `0x1f398ab3` — the unmasked
value, not the value as it arrived. -/
theorem c5_split_point_echo (letter : Nat → Nat) (st : Option Key)
    (req : EncryptKey2Request) :
    (handle_key_req letter st req).2.key_split_point
      = req.key_split_point ^^^ wordMask := rfl

/-- C5 counterexample: a request arriving with `key_split_point = 0` is
answered with `key_split_point = 0x1f398ab3`, not with the arrived value. -/
theorem c5_counterexample :
    (handle_key_req (fun _ => 97) none ⟨0⟩).2.key_split_point = 0x1f398ab3
    ∧ (handle_key_req (fun _ => 97) none ⟨0⟩).2.key_split_point ≠ 0 := by
  decide

lemma dec_unmask_mask_enc (enc dec : AriaBlock → AriaBlock)
    (hrt : ∀ b, dec (enc b) = b) (bs : List AriaBlock) :
    (xorBlocks (bs.map enc)).map (fun b => dec (xorBlock b)) = bs := by
  induction bs with
  | nil => rfl
  | cons a t ih =>
    have hstep : (xorBlocks ((a :: t).map enc)).map (fun b => dec (xorBlock b))
        = dec (xorBlock (xorBlock (enc a)))
          :: (xorBlocks (t.map enc)).map (fun b => dec (xorBlock b)) := rfl
    rw [hstep, xorBlock_xorBlock, hrt, ih]

lemma tryAsStr_arrFromSlice_item :
    tryAsStr (joinBlocks (arrFromSlice 16 "Data/Item.scp")) = some (strBytes "Data/Item.scp") := by
  decide

lemma tryAsStr_arrFromSlice_mobs :
    tryAsStr (joinBlocks (arrFromSlice 16 "Data/Mobs.scp")) = some (strBytes "Data/Mobs.scp") := by
  decide

lemma tryAsStr_arrFromSlice_warp :
    tryAsStr (joinBlocks (arrFromSlice 16 "Data/Warp.scp")) = some (strBytes "Data/Warp.scp") := by
  decide

/-- C4, confirmed.  Any successful `AuthenticationRequest` under an
established session key is answered with the fixed loopback address block
`"127.0.0.1"`, the fixed port `38180`, the word-masked fixed flag word, and
three resource-path fields built by encrypting with the session encrypt key
and then byte-masking: byte-unmasking and then decrypting each of them under
the same key (round-trip law of the cipher as hypothesis) yields the
zero-padded block arrays of `"Data/Item.scp"`, `"Data/Mobs.scp"` and
`"Data/Warp.scp"`, whose text decode is exactly those strings. -/
theorem c4_auth_response (cipher : AriaCipher) (key : Key) (req : KeyAuthRequest)
    (resp : KeyAuthResponse)
    (hrt : ∀ b, cipher.decrypt key (cipher.encrypt key b) = b)
    (h : handle_auth_req cipher (some key) req = .ok resp) :
    resp.ip_local = blockNew "127.0.0.1"
    ∧ resp.port = 38180
    ∧ resp.unk1 = 1
    ∧ resp.xor_unk2 = 0x03010101 ^^^ wordMask
    ∧ (resp.enc_item).map (fun b => cipher.decrypt key (xorBlock b))
        = arrFromSlice 16 "Data/Item.scp"
    ∧ (resp.enc_mobs).map (fun b => cipher.decrypt key (xorBlock b))
        = arrFromSlice 16 "Data/Mobs.scp"
    ∧ (resp.enc_warp).map (fun b => cipher.decrypt key (xorBlock b))
        = arrFromSlice 16 "Data/Warp.scp"
    ∧ tryAsStr (joinBlocks ((resp.enc_item).map (fun b => cipher.decrypt key (xorBlock b))))
        = some (strBytes "Data/Item.scp")
    ∧ tryAsStr (joinBlocks ((resp.enc_mobs).map (fun b => cipher.decrypt key (xorBlock b))))
        = some (strBytes "Data/Mobs.scp")
    ∧ tryAsStr (joinBlocks ((resp.enc_warp).map (fun b => cipher.decrypt key (xorBlock b))))
        = some (strBytes "Data/Warp.scp") := by
  unfold handle_auth_req at h
  split at h
  · exact absurd h (by simp)
  · split at h
    · exact absurd h (by simp)
    · split at h
      · exact absurd h (by simp)
      · rename_i key2 heq
        injection heq with heq
        subst heq
        split at h
        · injection h with h
          subst h
          have hi := dec_unmask_mask_enc (cipher.encrypt key) (cipher.decrypt key) hrt
            (arrFromSlice 16 "Data/Item.scp")
          have hm := dec_unmask_mask_enc (cipher.encrypt key) (cipher.decrypt key) hrt
            (arrFromSlice 16 "Data/Mobs.scp")
          have hw := dec_unmask_mask_enc (cipher.encrypt key) (cipher.decrypt key) hrt
            (arrFromSlice 16 "Data/Warp.scp")
          refine ⟨rfl, rfl, rfl, rfl, hi, hm, hw, ?_, ?_, ?_⟩
          · rw [hi]; exact tryAsStr_arrFromSlice_item
          · rw [hm]; exact tryAsStr_arrFromSlice_mobs
          · rw [hw]; exact tryAsStr_arrFromSlice_warp
        · exact absurd h (by simp)

/-- Extract the success value of a handler result, with a fallback. -/
def getOk {α : Type} (dflt : α) : CResult α → α
  | .ok a => a
  | .err _ => dflt

/-- A fallback authentication response (all fields zeroed/empty). -/
def defaultAuthResp : KeyAuthResponse :=
  { unk1 := 0, xor_unk2 := 0, ip_local := [], xor_unk3 := 0, enc_item := [],
    xor_unk4 := 0, enc_mobs := [], xor_unk5 := 0, enc_warp := [], port := 0 }

/-- The concrete session key generated from the all-`a` draw sequence. -/
def key0 : Key := genKeybuf (fun _ => 97)

/-- An authentication request whose masked fields decode successfully under
the identity cipher. -/
def authReqOk : KeyAuthRequest :=
  { xor_port := 0, unk1 := 0, unk2 := 0,
    ip_origin := xorBlock (blockNew "1.1.1.1"),
    ip_local := xorBlock (blockNew "1.1.1.1"),
    srchash := [xorBlock (blockNew "h")],
    binbuf := [xorBlock (blockNew "b")] }

/-- The response `handle_auth_req` produces for `authReqOk` under the identity
cipher and `key0`. -/
def authRespOk : KeyAuthResponse :=
  getOk defaultAuthResp (handle_auth_req idCipher (some key0) authReqOk)

/-- C4 witness: the theorem applied to the identity cipher, the key `key0` and
the concrete request `authReqOk`, which is handled successfully. -/
theorem c4_auth_response_witness :
    authRespOk.ip_local = blockNew "127.0.0.1"
    ∧ authRespOk.port = 38180
    ∧ authRespOk.unk1 = 1
    ∧ authRespOk.xor_unk2 = 0x03010101 ^^^ wordMask
    ∧ (authRespOk.enc_item).map (fun b => idCipher.decrypt key0 (xorBlock b))
        = arrFromSlice 16 "Data/Item.scp"
    ∧ (authRespOk.enc_mobs).map (fun b => idCipher.decrypt key0 (xorBlock b))
        = arrFromSlice 16 "Data/Mobs.scp"
    ∧ (authRespOk.enc_warp).map (fun b => idCipher.decrypt key0 (xorBlock b))
        = arrFromSlice 16 "Data/Warp.scp"
    ∧ tryAsStr (joinBlocks ((authRespOk.enc_item).map (fun b => idCipher.decrypt key0 (xorBlock b))))
        = some (strBytes "Data/Item.scp")
    ∧ tryAsStr (joinBlocks ((authRespOk.enc_mobs).map (fun b => idCipher.decrypt key0 (xorBlock b))))
        = some (strBytes "Data/Mobs.scp")
    ∧ tryAsStr (joinBlocks ((authRespOk.enc_warp).map (fun b => idCipher.decrypt key0 (xorBlock b))))
        = some (strBytes "Data/Warp.scp") :=
  c4_auth_response idCipher key0 authReqOk authRespOk (fun _ => rfl) rfl


/-- C6, confirmed.  Whenever the bincode decode of the nested inner request
consumes fewer (or otherwise other than) bytes than the ESYM payload holds,
the handler bails with the trailing-data protocol violation and no response is
produced. -/
theorem c6_trailing_rejected (decode : List Nat → Option (ESYMRequest × Nat))
    (fs : List Char → Option (List Nat)) (cfg : Config) (bytes : List Nat)
    (req : ESYMRequest) (len : Nat)
    (h1 : decode bytes = some (req, len)) (h2 : len ≠ bytes.length) :
    handle_esym decode fs cfg bytes = .err .trailingData := by
  simp [handle_esym, h1, h2]

/-- A decoder that consumes no bytes. -/
def esymDecode0 : List Nat → Option (ESYMRequest × Nat) :=
  fun _ => some ({ nation := 0, srchash := [] }, 0)

/-- A filesystem with no readable files. -/
def fs0 : List Char → Option (List Nat) := fun _ => none

/-- A concrete configuration with resources directory `r`. -/
def cfg0 : Config := ⟨"r".data⟩

/-- C6 witness: a one-byte payload whose inner request decodes after zero
bytes leaves one trailing byte and is rejected. -/
theorem c6_trailing_rejected_witness :
    handle_esym esymDecode0 fs0 cfg0 [0] = .err .trailingData :=
  c6_trailing_rejected esymDecode0 fs0 cfg0 [0] { nation := 0, srchash := [] } 0 rfl
    (by decide)

lemma takeWhile_append_all {α : Type} (p : α → Bool) (l₁ l₂ : List α)
    (h : ∀ a ∈ l₁, p a = true) :
    (l₁ ++ l₂).takeWhile p = l₁ ++ l₂.takeWhile p := by
  induction l₁ with
  | nil => simp
  | cons a t ih =>
    have ha : p a = true := h a (List.mem_cons_self a t)
    have ht : ∀ x ∈ t, p x = true := fun x hx => h x (List.mem_cons_of_mem a hx)
    simp [List.takeWhile_cons, ha, ih ht]

lemma takeWhile_all_eq_self {α : Type} (p : α → Bool) (l : List α)
    (h : ∀ a ∈ l, p a = true) : l.takeWhile p = l := by
  simpa using takeWhile_append_all p l [] h

lemma take_len_append {α : Type} (l₁ l₂ : List α) : (l₁ ++ l₂).take l₁.length = l₁ := by
  induction l₁ with
  | nil => rfl
  | cons a t ih => simp [ih]

lemma startsWithSlash_append (l₁ l₂ : List Char) (h : l₁ ≠ []) :
    startsWithSlash (l₁ ++ l₂) = startsWithSlash l₁ := by
  cases l₁ with
  | nil => exact absurd rfl h
  | cons c t => rfl

lemma startsWithSlash_eq_false (hash : List Char)
    (hh : ∀ c ∈ hash, (c != '/') = true) : startsWithSlash hash = false := by
  cases hash with
  | nil => rfl
  | cons c t =>
    have := hh c (List.mem_cons_self c t)
    simpa [startsWithSlash, bne] using this

lemma esymPath_eq (dir hash : List Char) (hd : dir ≠ [])
    (hds : startsWithSlash dir.reverse = false)
    (hh2 : ∀ c ∈ hash, (c != '/') = true) (hh3 : ∀ c ∈ hash, (c != '.') = true) :
    esymPath dir hash = dir ++ ("/resources/esym/".data) ++ hash ++ (".esym".data) := by
  have hres : startsWithSlash ("resources/esym".data) = false := rfl
  have hj1 : pathJoin dir ("resources/esym".data) = dir ++ '/' :: ("resources/esym".data) := by
    simp [pathJoin, hres, hd, hds]
  have ha2ne : dir ++ '/' :: ("resources/esym".data) ≠ [] := by simp
  have ha2rev : startsWithSlash (dir ++ '/' :: ("resources/esym".data)).reverse = false := by
    rw [List.reverse_append, List.reverse_cons, List.append_assoc,
      startsWithSlash_append _ _ (by decide)]
    decide
  have hsh : startsWithSlash hash = false := startsWithSlash_eq_false hash hh2
  have hj2 : pathJoin (dir ++ '/' :: ("resources/esym".data)) hash
      = (dir ++ '/' :: ("resources/esym".data)) ++ '/' :: hash := by
    simp [pathJoin, hsh, ha2ne, ha2rev]
    simp [startsWithSlash]
  have hlast : lastName ((dir ++ '/' :: ("resources/esym".data)) ++ '/' :: hash) = hash := by
    unfold lastName
    rw [List.reverse_append, List.reverse_cons, List.append_assoc,
      takeWhile_append_all _ _ _ (fun c hc => hh2 c (List.mem_reverse.mp hc))]
    have hstop : (List.takeWhile (fun c => c != '/')
        (['/'] ++ (dir ++ '/' :: ("resources/esym".data)).reverse)) = [] := rfl
    rw [hstop, List.append_nil, List.reverse_reverse]
  have hpre : dirPrefix ((dir ++ '/' :: ("resources/esym".data)) ++ '/' :: hash)
      = (dir ++ '/' :: ("resources/esym".data)) ++ ['/'] := by
    unfold dirPrefix
    rw [hlast]
    have hp : (dir ++ '/' :: ("resources/esym".data)) ++ '/' :: hash
        = ((dir ++ '/' :: ("resources/esym".data)) ++ ['/']) ++ hash := by simp
    rw [hp, List.length_append, Nat.add_sub_cancel, take_len_append]
  have hdrop : dropExt hash = hash := by
    unfold dropExt
    rw [takeWhile_all_eq_self _ _ (fun c hc => hh3 c (List.mem_reverse.mp hc))]
    simp
  unfold esymPath withExt
  rw [hj1, hj2, hpre, hlast, hdrop,
    show ("/resources/esym/".data) = ('/' :: ("resources/esym".data)) ++ ['/'] from rfl,
    show (".esym".data) = '.' :: ("esym".data) from rfl]
  simp [List.append_assoc]

/-- C7, amended.  The path handed to the filesystem is
`resources_dir.join("resources/esym").join(h).with_extension("esym")` under
std path semantics — for a nonempty relative hash `h` containing no separator
and no dot this is exactly `<resources-dir>/resources/esym/<h>.esym`, and a
read failure is reported with that formatted path; but `with_extension`
replaces an existing extension of `h` (and `join` lets an absolute `h` replace
the whole prefix), so the path is not `<h>.esym` for every verbatim `h`. -/
theorem c7_esym_path (dir hash : List Char)
    (decode : List Nat → Option (ESYMRequest × Nat))
    (fs : List Char → Option (List Nat)) (cfg : Config) (bytes : List Nat)
    (req : ESYMRequest) (len : Nat)
    (hd : dir ≠ []) (hds : startsWithSlash dir.reverse = false) (_hh0 : hash ≠ [])
    (hh2 : ∀ c ∈ hash, (c != '/') = true) (hh3 : ∀ c ∈ hash, (c != '.') = true)
    (hcfg : cfg.resources_dir = dir) (h1 : decode bytes = some (req, len))
    (h2 : len = bytes.length) (hs : req.srchash = hash)
    (hfs : fs (esymPath dir hash) = none) :
    esymPath dir hash = dir ++ ("/resources/esym/".data) ++ hash ++ (".esym".data)
    ∧ handle_esym decode fs cfg bytes
        = .err (.readFailed (("cannot read \"".data) ++ esymPath dir hash ++ ("\"".data))) := by
  refine ⟨esymPath_eq dir hash hd hds hh2 hh3, ?_⟩
  simp [handle_esym, h1, h2, hs, hcfg, hfs]

/-- A decoder that consumes the whole one-byte payload and yields the hash
`abc`. -/
def esymDecodeAbc : List Nat → Option (ESYMRequest × Nat) :=
  fun _ => some ({ nation := 0, srchash := "abc".data }, 1)

/-- C7 witness: the theorem applied to the directory `r`, the hash `abc`, a
decoder consuming the whole payload, and an empty filesystem. -/
theorem c7_esym_path_witness :
    esymPath ("r".data) ("abc".data)
      = ("r".data) ++ ("/resources/esym/".data) ++ ("abc".data) ++ (".esym".data)
    ∧ handle_esym esymDecodeAbc fs0 cfg0 [0]
        = .err (.readFailed (("cannot read \"".data) ++ esymPath ("r".data) ("abc".data)
            ++ ("\"".data))) :=
  c7_esym_path ("r".data) ("abc".data) esymDecodeAbc fs0 cfg0 [0]
    { nation := 0, srchash := "abc".data } 1
    (by decide) (by decide) (by decide) (by decide) (by decide) rfl rfl rfl rfl rfl

/-- C7 counterexample: for the verbatim hash `a.b` (under resources directory
`r`) the file actually read is `r/resources/esym/a.esym` — `with_extension`
replaced the `.b` suffix — not `r/resources/esym/a.b.esym` as the claim
states. -/
theorem c7_counterexample :
    esymPath ("r".data) ("a.b".data) = ("r/resources/esym/a.esym".data)
    ∧ esymPath ("r".data) ("a.b".data)
        ≠ ("r".data) ++ ("/resources/esym/".data) ++ ("a.b".data) ++ (".esym".data) := by
  decide

/-- C10, confirmed.  For every successfully read resource file the `filesize`
field of the `ESYMResponse` is the byte length of the file reduced modulo
`2^32` (the `as u32` cast), the raw bytes are sent unmodified, and for a file
of `2^32` bytes or more the reported `filesize` necessarily differs from the
length of the bytes sent alongside it. -/
theorem c10_filesize_cast (decode : List Nat → Option (ESYMRequest × Nat))
    (fs : List Char → Option (List Nat)) (cfg : Config) (bytes : List Nat)
    (req : ESYMRequest) (len : Nat) (data : List Nat)
    (h1 : decode bytes = some (req, len)) (h2 : len = bytes.length)
    (h3 : fs (esymPath cfg.resources_dir req.srchash) = some data)
    (h4 : 2 ^ 32 ≤ data.length) :
    handle_esym decode fs cfg bytes = .ok (mkESYMResponse data)
    ∧ (mkESYMResponse data).filesize = data.length % 2 ^ 32
    ∧ (mkESYMResponse data).esym = data
    ∧ (mkESYMResponse data).filesize ≠ data.length := by
  refine ⟨by simp [handle_esym, h1, h2, h3], rfl, rfl, ?_⟩
  intro hEq
  have hrw : (mkESYMResponse data).filesize = data.length % 2 ^ 32 := rfl
  rw [hrw] at hEq
  omega

/-- A file of exactly `2^32` zero bytes. -/
def bigData : List Nat := List.replicate (2 ^ 32) 0

/-- A filesystem where every path holds the `2^32`-byte file. -/
def fsBig : List Char → Option (List Nat) := fun _ => some bigData

lemma bigData_length : bigData.length = 2 ^ 32 := by
  rw [bigData, List.length_replicate]

/-- C10 witness: the theorem applied to a `2^32`-byte file, whose reported
`filesize` is `0`. -/
theorem c10_filesize_cast_witness :
    handle_esym esymDecodeAbc fsBig cfg0 [0] = .ok (mkESYMResponse bigData)
    ∧ (mkESYMResponse bigData).filesize = bigData.length % 2 ^ 32
    ∧ (mkESYMResponse bigData).esym = bigData
    ∧ (mkESYMResponse bigData).filesize ≠ bigData.length :=
  c10_filesize_cast esymDecodeAbc fsBig cfg0 [0] { nation := 0, srchash := "abc".data } 1
    bigData rfl rfl rfl (by rw [bigData_length])
